import Mathlib

/-!
Verification of the injury-scraping core of `polyst.py`.

The program fetches an HTML lineup page, finds every `div.lineup__box`
matchup container, resolves the two team codes, collects qualifying
injury-status spans into descriptor strings, and builds a dict from
matchup label to descriptor list (`RotowireScraper.fetch_injuries`).
`TheEdgeSystem.scan_live_web` then prints every matchup and raises a
"Sniper Alert" for matchups whose descriptor list triggers a keyword check.

The HTML parse tree is modelled by `Node`/`NodeForest`; the BeautifulSoup
operations the source uses (`find_all`, `find`, `find_parent`, `.text`,
`.strip()`) are embedded as functions over this tree, with document order
being preorder traversal and ancestor chains listed nearest-first.
-/

/-- Python's ASCII whitespace characters (those `str.strip()` removes). -/
def isPySpace (c : Char) : Bool :=
  c == ' ' || c == '\t' || c == '\n' || c == '\r' ||
    c == Char.ofNat 11 || c == Char.ofNat 12

/-- Python `s.strip()`: drop whitespace from both ends. -/
def pyStrip (s : String) : String :=
  String.mk (((s.data.dropWhile isPySpace).reverse.dropWhile isPySpace).reverse)

/-- Uppercase one character (ASCII). -/
def upperChar (c : Char) : Char :=
  if 97 ≤ c.toNat && c.toNat ≤ 122 then Char.ofNat (c.toNat - 32) else c

/-- Python `s.upper()` (ASCII range). -/
def pyUpper (s : String) : String :=
  String.mk (s.data.map upperChar)

mutual
inductive Node where
  | elem (tag : String) (classes : List String) (children : NodeForest)
  | text (s : String)
inductive NodeForest where
  | nil
  | cons (hd : Node) (tl : NodeForest)
end

/-- Build a forest from a plain list of nodes (convenience for examples). -/
def nodesOf : List Node → NodeForest
  | [] => NodeForest.nil
  | n :: t => NodeForest.cons n (nodesOf t)

/-- Concatenated text of every text node in a forest, in document order
(BeautifulSoup `.text` / `get_text()` semantics). -/
def forestText : NodeForest → String
  | NodeForest.nil => ""
  | NodeForest.cons (Node.text s) rest => s ++ forestText rest
  | NodeForest.cons (Node.elem _ _ ch) rest => forestText ch ++ forestText rest

/-- `.text` of a single node. -/
def Node.getText : Node → String
  | Node.text s => s
  | Node.elem _ _ ch => forestText ch

/-- Does this node have the given element tag name? -/
def Node.tagIs (n : Node) (tag : String) : Bool :=
  match n with
  | Node.elem t _ _ => t == tag
  | Node.text _ => false

/-- Does this element carry the given CSS class?  (`class_="c"` filter) -/
def Node.hasClass (n : Node) (c : String) : Bool :=
  match n with
  | Node.elem _ cls _ => cls.contains c
  | Node.text _ => false

/-- Does this element carry at least one of the given CSS classes?
(`class_=[c1, c2]` filter) -/
def Node.hasAnyClass (n : Node) (cs : List String) : Bool :=
  match n with
  | Node.elem _ cls _ => cls.any (fun c => cs.contains c)
  | Node.text _ => false

def matchesTagClass (tag cls : String) (n : Node) : Bool :=
  n.tagIs tag && n.hasClass cls

def matchesTagClasses (tag : String) (cs : List String) (n : Node) : Bool :=
  n.tagIs tag && n.hasAnyClass cs

/-- All nodes of a forest together with their proper descendants, in document
order (preorder).  Each node is paired with its ancestor chain, nearest
ancestor first; `anc` is the chain shared by the roots of the forest. -/
def forestDescs (anc : List Node) : NodeForest → List (Node × List Node)
  | NodeForest.nil => []
  | NodeForest.cons (Node.text s) rest => (Node.text s, anc) :: forestDescs anc rest
  | NodeForest.cons (Node.elem t c ch) rest =>
      (Node.elem t c ch, anc) ::
        (forestDescs (Node.elem t c ch :: anc) ch ++ forestDescs anc rest)

/-- Proper descendants of `n`, with full ancestor chains, where `anc` is the
ancestor chain of `n` itself. -/
def Node.descsFrom (anc : List Node) (n : Node) : List (Node × List Node) :=
  match n with
  | Node.text _ => []
  | Node.elem t c ch => forestDescs (Node.elem t c ch :: anc) ch

/-- Proper descendants of `n`, without chains. -/
def Node.descNodes (n : Node) : List Node :=
  (Node.descsFrom [] n).map Prod.fst

/-- `n.find_all(tag, class_=cls)`: descendants matching tag and class, in
document order. -/
def findAllTagClass (tag cls : String) (n : Node) : List Node :=
  (Node.descNodes n).filter (matchesTagClass tag cls)

/-- `n.find(tag)`: first descendant with the given tag, in document order. -/
def findTagIn (tag : String) (n : Node) : Option Node :=
  (Node.descNodes n).find? (fun m => Node.tagIs m tag)

/-- `n.find_parent(tag)`: nearest ancestor with the given tag. -/
def findParentTag (tag : String) (anc : List Node) : Option Node :=
  anc.find? (fun m => Node.tagIs m tag)

/-! ## The extraction pass of `RotowireScraper.fetch_injuries` -/

/-- `soup.find_all("div", class_="lineup__box")`, each box with its
ancestor chain. -/
def boxesOf (doc : Node) : List (Node × List Node) :=
  (Node.descsFrom [] doc).filter (fun p => matchesTagClass "div" "lineup__box" p.1)

/-- The fixed qualifying status set of the source. -/
def statusSet : List String := ["OUT", "GTD", "DOUBTFUL"]

/-- The two status-span classes searched inside a box. -/
def statusClasses : List String := ["lineup__injuries-status", "lineup__status"]

/-- `box.find_all("span", class_=["lineup__injuries-status", "lineup__status"])`,
each span with its full ancestor chain. -/
def statusSpans (b : Node × List Node) : List (Node × List Node) :=
  (Node.descsFrom b.2 b.1).filter (fun p => matchesTagClasses "span" statusClasses p.1)

/-- The entries (zero or one) that a single status span contributes to a
box's `injured_players` list: trim and uppercase the text, test membership
in the status set, walk to the nearest `li` (else `div`) ancestor, take the
trimmed text of its first anchor (else the sentinel `"Unknown"`), and emit
`"<name> (<STATUS>)"`. -/
def statusEntry (anc : List Node) (statusTag : Node) : List String :=
  let statusText := pyUpper (pyStrip (Node.getText statusTag))
  if statusSet.contains statusText then
    match (findParentTag "li" anc).orElse (fun _ => findParentTag "div" anc) with
    | some playerNode =>
        let playerName :=
          match findTagIn "a" playerNode with
          | some a => pyStrip (Node.getText a)
          | none => "Unknown"
        [playerName ++ " (" ++ statusText ++ ")"]
    | none => []
  else []

/-- The `injured_players` list accumulated over all status spans of a box. -/
def injuredPlayers (b : Node × List Node) : List String :=
  (statusSpans b).foldl (fun acc p => acc ++ statusEntry p.2 p.1) []

/-- `box.find_all("a", class_="lineup__team")`, falling back to
`box.find_all("div", class_="lineup__team-abbr")` when empty. -/
def teamDivs (box : Node) : List Node :=
  let primary := findAllTagClass "a" "lineup__team" box
  if primary.isEmpty then findAllTagClass "div" "lineup__team-abbr" box else primary

/-- The `teams` list of a box: trimmed texts of the selected team elements. -/
def teams (box : Node) : List String :=
  (teamDivs box).foldl (fun acc t => acc ++ [pyStrip (Node.getText t)]) []

/-- `f"{teams[0]} vs {teams[1]}" if len(teams) >= 2 else "Unknown Matchup"`. -/
def matchupKey : List String → String
  | t0 :: t1 :: _ => t0 ++ " vs " ++ t1
  | _ => "Unknown Matchup"

/-- The injury report: a Python dict modelled as an insertion-ordered
association list. -/
abbrev Report := List (String × List String)

/-- Python dict assignment `d[k] = v`: overwrite in place if the key exists,
append otherwise. -/
def dictInsert (d : Report) (k : String) (v : List String) : Report :=
  if d.any (fun p => p.1 == k) then
    d.map (fun p => if p.1 == k then (p.1, v) else p)
  else d ++ [(k, v)]

/-- Dict lookup. -/
def dictLookup (d : Report) (k : String) : Option (List String) :=
  (d.find? (fun p => p.1 == k)).map Prod.snd

/-- The body of the `for box in lineup_boxes` loop: compute teams and
injured players; insert under the matchup key only when the injured list is
non-empty. -/
def processBox (d : Report) (b : Node × List Node) : Report :=
  let ts := teams b.1
  let inj := injuredPlayers b
  let key := matchupKey ts
  if inj.isEmpty then d else dictInsert d key inj

/-- The whole extraction pass over a parsed document. -/
def extract (doc : Node) : Report :=
  (boxesOf doc).foldl processBox []

/-! ## `fetch_injuries`: league dispatch, network outcome, logging -/

/-- `self.urls.get(league)` (after the caller uppercases the league). -/
def urls (s : String) : Option String :=
  if s = "NBA" then some "https://www.rotowire.com/basketball/nba-lineups.php"
  else if s = "NHL" then some "https://www.rotowire.com/hockey/nhl-lineups.php"
  else none

/-- The console messages `fetch_injuries` can print, tagged with the data
interpolated into them. -/
inductive Msg where
  | leagueNotSupported (league : String)
  | connecting (league : String)
  | connectionFailed (status : Nat)
  | scraped (games matchups : Nat)
  | scrapingError
deriving DecidableEq, Repr

/-- Outcome of `requests.get` + `BeautifulSoup` parsing: either a status
code with a parsed document, or an exception raised inside the `try` block. -/
inductive NetResult where
  | ok (status : Nat) (doc : Node)
  | exn

/-- Observable outcome of one `fetch_injuries` call: the returned dict,
whether the network fetch was attempted, and the printed messages in order. -/
structure FetchOutcome where
  report : Report
  fetched : Bool
  log : List Msg

/-- `RotowireScraper.fetch_injuries(league)`, with the network modelled by
`net`.  The league is uppercased before the URL lookup; an unknown league
prints an error and returns `{}` without fetching; a non-200 status or an
exception prints a warning and returns `{}`; otherwise the extraction pass
runs and the scraped-counts line is printed. -/
def fetch_injuries (league : String) (net : NetResult) : FetchOutcome :=
  match urls (pyUpper league) with
  | none => ⟨[], false, [Msg.leagueNotSupported league]⟩
  | some _ =>
      match net with
      | NetResult.exn => ⟨[], true, [Msg.connecting league, Msg.scrapingError]⟩
      | NetResult.ok status doc =>
          if status ≠ 200 then
            ⟨[], true, [Msg.connecting league, Msg.connectionFailed status]⟩
          else
            let report := extract doc
            ⟨report, true,
              [Msg.connecting league, Msg.scraped (boxesOf doc).length report.length]⟩

/-! ## The alert heuristic of `TheEdgeSystem.scan_live_web` -/

/-- Does the list of characters `hay` start with `needle`? -/
def charsStartWith : List Char → List Char → Bool
  | [], _ => true
  | _ :: _, [] => false
  | a :: as, b :: bs => a == b && charsStartWith as bs

/-- Python's substring test `needle in hay`. -/
def charsContain : List Char → List Char → Bool
  | [], needle => charsStartWith needle []
  | c :: t, needle => charsStartWith needle (c :: t) || charsContain t needle

/-- Python `needle in hay` on strings. -/
def strContains (hay needle : String) : Bool :=
  charsContain hay.data needle.data

/-- The matchups for which `scan_live_web` prints a Sniper Alert: those whose
descriptor list satisfies `any("OUT" in p for p in players)`, in report
order. -/
def sniperAlerts (report : Report) : List String :=
  (report.filter (fun mp => mp.2.any (fun p => strContains p "OUT"))).map Prod.fst

/-- `s` ends with `suffix` (character-level; used to state what "the status
substring of a descriptor" is). -/
def strEndsWith (s suffix : String) : Bool :=
  charsStartWith suffix.data.reverse s.data.reverse


/-! ## Example documents used by the concrete witnesses -/

def exLi : Node :=
  Node.elem "li" [] (nodesOf [Node.elem "a" [] (nodesOf [Node.text "LeBron James"]),
    Node.elem "span" ["lineup__status"] (nodesOf [Node.text "OUT"])])

def exBox : Node :=
  Node.elem "div" ["lineup__box"] (nodesOf
    [Node.elem "a" ["lineup__team"] (nodesOf [Node.text "LAL"]),
     Node.elem "a" ["lineup__team"] (nodesOf [Node.text "BOS"]),
     Node.elem "ul" [] (nodesOf [exLi])])

def exDoc : Node := Node.elem "[document]" [] (nodesOf [exBox])


/-- A document with one matchup container but no qualifying injuries. -/
def exDocGtd : Node :=
  Node.elem "[document]" [] (nodesOf
    [Node.elem "div" ["lineup__box"] (nodesOf
      [Node.elem "a" ["lineup__team"] (nodesOf [Node.text "AAA"]),
       Node.elem "a" ["lineup__team"] (nodesOf [Node.text "BBB"]),
       Node.elem "li" [] (nodesOf
         [Node.elem "a" [] (nodesOf [Node.text "SCOUT"]),
          Node.elem "span" ["lineup__status"] (nodesOf [Node.text "GTD"])])])])

/-- A document with no matchup containers at all. -/
def exDocEmpty : Node :=
  Node.elem "[document]" [] (nodesOf [Node.elem "div" [] NodeForest.nil])

/-! ## Helper lemmas -/

theorem foldl_append_singleton {α β : Type} (f : α → β) :
    ∀ (l : List α) (acc : List β),
      l.foldl (fun a t => a ++ [f t]) acc = acc ++ l.map f := by
  intro l
  induction l with
  | nil => intro acc; simp
  | cons x xs ih => intro acc; simp [ih]

theorem dictInsert_keys (d : Report) (k : String) (v : List String) :
    (dictInsert d k v).map Prod.fst =
      if d.any (fun p => p.1 == k) then d.map Prod.fst
      else d.map Prod.fst ++ [k] := by
  by_cases h : d.any (fun p => p.1 == k)
  · simp only [dictInsert, if_pos h, List.map_map]
    congr 1
    funext p
    by_cases hp : p.1 = k <;> simp [hp]
  · simp [dictInsert, h]

theorem self_mem_dictInsert_keys (d : Report) (k : String) (v : List String) :
    k ∈ (dictInsert d k v).map Prod.fst := by
  rw [dictInsert_keys]
  by_cases h : d.any (fun p => p.1 == k)
  · rw [if_pos h]
    rcases List.any_eq_true.mp h with ⟨p, hp, hpk⟩
    exact List.mem_map.mpr ⟨p, hp, by simpa using hpk⟩
  · rw [if_neg h]
    exact List.mem_append_right _ (List.mem_singleton.mpr rfl)

theorem mem_dictInsert_keys_of_mem (d : Report) (k k' : String) (v : List String)
    (h : k' ∈ d.map Prod.fst) : k' ∈ (dictInsert d k v).map Prod.fst := by
  rw [dictInsert_keys]
  by_cases hc : d.any (fun p => p.1 == k)
  · rwa [if_pos hc]
  · rw [if_neg hc]; exact List.mem_append_left _ h

theorem mem_dictInsert_cases (d : Report) (k : String) (v : List String)
    (kv : String × List String) (h : kv ∈ dictInsert d k v) :
    kv.2 = v ∨ kv ∈ d := by
  unfold dictInsert at h
  by_cases hc : d.any (fun p => p.1 == k)
  · rw [if_pos hc] at h
    rcases List.mem_map.mp h with ⟨p, hp, hpe⟩
    by_cases hpk : p.1 == k
    · left; rw [if_pos hpk] at hpe; rw [← hpe]
    · right; rw [if_neg hpk] at hpe; rwa [← hpe]
  · rw [if_neg hc] at h
    rcases List.mem_append.mp h with h | h
    · right; exact h
    · left; rw [List.mem_singleton.mp h]

theorem mem_keys_foldl_processBox :
    ∀ (bs : List (Node × List Node)) (d : Report) (k : String),
      k ∈ d.map Prod.fst → k ∈ (bs.foldl processBox d).map Prod.fst := by
  intro bs
  induction bs with
  | nil => intro d k h; simpa using h
  | cons b rest ih =>
      intro d k h
      simp only [List.foldl_cons]
      apply ih
      unfold processBox
      by_cases hinj : (injuredPlayers b).isEmpty
      · rwa [if_pos hinj]
      · rw [if_neg hinj]
        exact mem_dictInsert_keys_of_mem _ _ _ _ h

/-! ## C7: zero matchup containers -/

/-- C7: for any document containing zero matchup containers (no elements
matching the lineup-box class), extraction returns an empty mapping. -/
theorem extract_empty_of_no_boxes (doc : Node) (h : boxesOf doc = []) :
    extract doc = [] := by
  unfold extract
  rw [h]
  rfl

theorem extract_empty_of_no_boxes_witness :
    boxesOf exDocEmpty = [] ∧ extract exDocEmpty = [] :=
  ⟨rfl, extract_empty_of_no_boxes exDocEmpty rfl⟩

/-! ## C2: the status filter -/

/-- C2: a status element's text is trimmed and uppercased, and if the
normalized text is outside the fixed set `{OUT, GTD, DOUBTFUL}` the element
contributes zero entries to the report. -/
theorem nonqualifying_status_contributes_nothing (anc : List Node) (sp : Node)
    (h : statusSet.contains (pyUpper (pyStrip (Node.getText sp))) = false) :
    statusEntry anc sp = [] := by
  unfold statusEntry
  dsimp only
  rw [h]
  rfl

theorem nonqualifying_status_contributes_nothing_witness :
    statusSet.contains
      (pyUpper (pyStrip (Node.getText
        (Node.elem "span" ["lineup__status"] (nodesOf [Node.text "Questionable"]))))) = false ∧
    statusEntry []
      (Node.elem "span" ["lineup__status"] (nodesOf [Node.text "Questionable"])) = [] :=
  ⟨by decide,
    nonqualifying_status_contributes_nothing []
      (Node.elem "span" ["lineup__status"] (nodesOf [Node.text "Questionable"]))
      (by decide)⟩

/-! ## C6: failed fetches -/

/-- C6: when the league is supported, a non-200 response or an exception
raised inside the `try` block makes `fetch_injuries` return an empty mapping
and print a warning; neither failure escapes the call. -/
theorem failed_fetch_returns_empty_report (league u : String) (s : Nat) (doc : Node)
    (hu : urls (pyUpper league) = some u) (hs : s ≠ 200) :
    ((fetch_injuries league (NetResult.ok s doc)).report = [] ∧
      Msg.connectionFailed s ∈ (fetch_injuries league (NetResult.ok s doc)).log) ∧
    ((fetch_injuries league NetResult.exn).report = [] ∧
      Msg.scrapingError ∈ (fetch_injuries league NetResult.exn).log) := by
  unfold fetch_injuries
  rw [hu]
  simp [hs]

theorem failed_fetch_returns_empty_report_witness :
    urls (pyUpper "NBA") = some "https://www.rotowire.com/basketball/nba-lineups.php" ∧
    ((fetch_injuries "NBA" (NetResult.ok 403 exDoc)).report = [] ∧
      Msg.connectionFailed 403 ∈ (fetch_injuries "NBA" (NetResult.ok 403 exDoc)).log) ∧
    ((fetch_injuries "NBA" NetResult.exn).report = [] ∧
      Msg.scrapingError ∈ (fetch_injuries "NBA" NetResult.exn).log) :=
  ⟨by decide,
    failed_fetch_returns_empty_report "NBA"
      "https://www.rotowire.com/basketball/nba-lineups.php" 403 exDoc
      (by decide) (by decide)⟩

/-! ## C10: league normalization and dispatch -/

theorem fetch_upper_invariant (l1 l2 : String) (net : NetResult)
    (h : pyUpper l1 = pyUpper l2) :
    (fetch_injuries l1 net).report = (fetch_injuries l2 net).report ∧
    (fetch_injuries l1 net).fetched = (fetch_injuries l2 net).fetched := by
  unfold fetch_injuries
  rw [h]
  cases hu : urls (pyUpper l2) with
  | none => simp
  | some u =>
      cases net with
      | exn => simp
      | ok status doc => by_cases hs : status ≠ 200 <;> simp [hs]

/-- C10: the league argument is uppercased before the URL lookup, so any
case variant of `"NBA"`/`"NHL"` yields the same report and the same
fetch behaviour as the canonical form; any other league string yields an
empty mapping, an error message, and no network fetch at all. -/
theorem fetch_league_dispatch (league : String) (net : NetResult) :
    (∀ canon, pyUpper league = canon → canon = "NBA" ∨ canon = "NHL" →
      (fetch_injuries league net).report = (fetch_injuries canon net).report ∧
      (fetch_injuries league net).fetched = (fetch_injuries canon net).fetched) ∧
    (pyUpper league ≠ "NBA" → pyUpper league ≠ "NHL" →
      fetch_injuries league net = ⟨[], false, [Msg.leagueNotSupported league]⟩) := by
  constructor
  · intro canon hc hcanon
    apply fetch_upper_invariant
    rcases hcanon with h | h <;> rw [hc, h] <;> decide
  · intro h1 h2
    unfold fetch_injuries
    have : urls (pyUpper league) = none := by
      unfold urls
      rw [if_neg h1, if_neg h2]
    rw [this]

theorem fetch_league_dispatch_witness :
    pyUpper "nba" = "NBA" ∧
    ((fetch_injuries "nba" (NetResult.ok 200 exDoc)).report =
        (fetch_injuries "NBA" (NetResult.ok 200 exDoc)).report ∧
      (fetch_injuries "nba" (NetResult.ok 200 exDoc)).fetched =
        (fetch_injuries "NBA" (NetResult.ok 200 exDoc)).fetched) ∧
    fetch_injuries "MLB" (NetResult.ok 200 exDoc) =
      ⟨[], false, [Msg.leagueNotSupported "MLB"]⟩ :=
  ⟨by decide,
    (fetch_league_dispatch "nba" (NetResult.ok 200 exDoc)).1 "NBA" (by decide) (Or.inl rfl),
    (fetch_league_dispatch "MLB" (NetResult.ok 200 exDoc)).2 (by decide) (by decide)⟩

/-! ## C8: team selector fallback -/

theorem isEmpty_false_of_ne_nil {α : Type} {l : List α} (h : l ≠ []) :
    l.isEmpty = false := by
  cases l with
  | nil => exact absurd rfl h
  | cons a t => rfl

theorem ne_nil_of_isEmpty_false {α : Type} {l : List α} (h : l.isEmpty = false) :
    l ≠ [] := by
  cases l with
  | nil => simp at h
  | cons a t => exact List.cons_ne_nil a t

/-- A matchup container with no team anchors, only abbreviation blocks. -/
def exBoxAbbr : Node :=
  Node.elem "div" ["lineup__box"] (nodesOf
    [Node.elem "div" ["lineup__team-abbr"] (nodesOf [Node.text "NYR"]),
     Node.elem "div" ["lineup__team-abbr"] (nodesOf [Node.text "BOS"])])

/-- C8: team identifiers come from the primary selector
(`a.lineup__team`); the secondary selector (`div.lineup__team-abbr`) is
used exactly when the primary one yields nothing, and the resolved
identifiers are the trimmed texts of the selected elements in document
order. -/
theorem team_selector_fallback (box : Node) :
    (findAllTagClass "a" "lineup__team" box ≠ [] →
      teams box = (findAllTagClass "a" "lineup__team" box).map
        (fun t => pyStrip (Node.getText t))) ∧
    (findAllTagClass "a" "lineup__team" box = [] →
      teams box = (findAllTagClass "div" "lineup__team-abbr" box).map
        (fun t => pyStrip (Node.getText t))) := by
  constructor
  · intro h
    unfold teams teamDivs
    dsimp only
    rw [isEmpty_false_of_ne_nil h]
    rw [if_neg (by simp)]
    rw [foldl_append_singleton (fun t => pyStrip (Node.getText t))]
    simp
  · intro h
    unfold teams teamDivs
    dsimp only
    rw [h]
    rw [if_pos (show (List.isEmpty ([] : List Node)) = true from rfl)]
    rw [foldl_append_singleton (fun t => pyStrip (Node.getText t))]
    simp

theorem team_selector_fallback_witness :
    (findAllTagClass "a" "lineup__team" exBox ≠ [] ∧
      teams exBox = (findAllTagClass "a" "lineup__team" exBox).map
        (fun t => pyStrip (Node.getText t))) ∧
    (findAllTagClass "a" "lineup__team" exBoxAbbr = [] ∧
      teams exBoxAbbr = (findAllTagClass "div" "lineup__team-abbr" exBoxAbbr).map
        (fun t => pyStrip (Node.getText t))) :=
  ⟨⟨List.cons_ne_nil _ _, (team_selector_fallback exBox).1 (List.cons_ne_nil _ _)⟩,
   ⟨rfl, (team_selector_fallback exBoxAbbr).2 rfl⟩⟩

/-! ## C1: the matchup key -/

/-- C1: when a container with a non-empty injury list has two or more
resolved team identifiers, the key inserted into the report is exactly
`"<first> vs <second>"` from the first two; with fewer than two identifiers
the key is the sentinel `"Unknown Matchup"`.  The key is present in the
final report in both cases. -/
theorem matchup_key_from_first_two_teams (doc : Node) (b : Node × List Node)
    (hb : b ∈ boxesOf doc) (hinj : injuredPlayers b ≠ []) :
    matchupKey (teams b.1) ∈ (extract doc).map Prod.fst ∧
    (∀ t0 t1 rest, teams b.1 = t0 :: t1 :: rest →
      matchupKey (teams b.1) = t0 ++ " vs " ++ t1) ∧
    ((teams b.1).length < 2 → matchupKey (teams b.1) = "Unknown Matchup") := by
  refine ⟨?_, ?_, ?_⟩
  · obtain ⟨l1, l2, hsplit⟩ := List.append_of_mem hb
    unfold extract
    rw [hsplit, List.foldl_append]
    simp only [List.foldl_cons]
    apply mem_keys_foldl_processBox
    unfold processBox
    dsimp only
    rw [isEmpty_false_of_ne_nil hinj]
    rw [if_neg (by simp)]
    exact self_mem_dictInsert_keys _ _ _
  · intro t0 t1 rest h
    rw [h]
    rfl
  · intro hlen
    rcases hte : teams b.1 with _ | ⟨t0, _ | ⟨t1, rest⟩⟩
    · rfl
    · rfl
    · rw [hte] at hlen
      simp only [List.length_cons] at hlen
      omega

theorem matchup_key_from_first_two_teams_witness :
    injuredPlayers (exBox, ([exDoc] : List Node)) ≠ [] ∧
    matchupKey (teams exBox) ∈ (extract exDoc).map Prod.fst ∧
    matchupKey (teams exBox) = "LAL" ++ " vs " ++ "BOS" :=
  ⟨by decide,
    (matchup_key_from_first_two_teams exDoc (exBox, [exDoc])
      (List.mem_singleton.mpr rfl) (by decide)).1,
    (matchup_key_from_first_two_teams exDoc (exBox, [exDoc])
      (List.mem_singleton.mpr rfl) (by decide)).2.1 "LAL" "BOS" [] (by decide)⟩

/-! ## C3: no empty-list entries -/

theorem foldl_processBox_values_ne_nil :
    ∀ (bs : List (Node × List Node)) (d : Report),
      (∀ kv ∈ d, kv.2 ≠ []) → ∀ kv ∈ bs.foldl processBox d, kv.2 ≠ [] := by
  intro bs
  induction bs with
  | nil => intro d hd kv h; exact hd kv (by simpa using h)
  | cons b rest ih =>
      intro d hd kv h
      simp only [List.foldl_cons] at h
      refine ih (processBox d b) ?_ kv h
      intro kv' hkv'
      unfold processBox at hkv'
      by_cases hinj : (injuredPlayers b).isEmpty = true
      · rw [if_pos hinj] at hkv'
        exact hd kv' hkv'
      · rw [if_neg hinj] at hkv'
        rcases mem_dictInsert_cases _ _ _ _ hkv' with h' | h'
        · rw [h']
          exact ne_nil_of_isEmpty_false (Bool.eq_false_iff.mpr hinj)
        · exact hd kv' h'

/-- C3: a container whose injury list is empty after filtering inserts no
key, so every value in the returned report is a non-empty descriptor
list. -/
theorem report_values_nonempty (doc : Node) (kv : String × List String)
    (h : kv ∈ extract doc) : kv.2 ≠ [] :=
  foldl_processBox_values_ne_nil (boxesOf doc) [] (by simp) kv h

theorem report_values_nonempty_witness :
    (("LAL vs BOS", ["LeBron James (OUT)"]) ∈ extract exDoc) ∧
    (("LAL vs BOS", ["LeBron James (OUT)"]) : String × List String).2 ≠ [] :=
  ⟨by decide, report_values_nonempty exDoc ("LAL vs BOS", ["LeBron James (OUT)"]) (by decide)⟩

/-! ## C9: duplicate matchup labels -/

/-- First of two containers for the same matchup. -/
def exBoxDup1 : Node :=
  Node.elem "div" ["lineup__box"] (nodesOf
    [Node.elem "a" ["lineup__team"] (nodesOf [Node.text "CHI"]),
     Node.elem "a" ["lineup__team"] (nodesOf [Node.text "MIA"]),
     Node.elem "li" [] (nodesOf
       [Node.elem "a" [] (nodesOf [Node.text "Alpha"]),
        Node.elem "span" ["lineup__status"] (nodesOf [Node.text "OUT"])])])

/-- Second container producing the same matchup label. -/
def exBoxDup2 : Node :=
  Node.elem "div" ["lineup__box"] (nodesOf
    [Node.elem "a" ["lineup__team"] (nodesOf [Node.text "CHI"]),
     Node.elem "a" ["lineup__team"] (nodesOf [Node.text "MIA"]),
     Node.elem "li" [] (nodesOf
       [Node.elem "a" [] (nodesOf [Node.text "Beta"]),
        Node.elem "span" ["lineup__status"] (nodesOf [Node.text "OUT"])])])

def exDocDup : Node := Node.elem "[document]" [] (nodesOf [exBoxDup1, exBoxDup2])

/-- C9: when a document's two matchup containers (both with qualifying
injuries) produce the same matchup label, the returned mapping holds only
the injury list of the later container — the later write overwrites the
earlier one. -/
theorem duplicate_matchup_last_write_wins (doc : Node) (b1 b2 : Node × List Node)
    (hsplit : boxesOf doc = [b1, b2])
    (hk : matchupKey (teams b1.1) = matchupKey (teams b2.1))
    (h1 : injuredPlayers b1 ≠ []) (h2 : injuredPlayers b2 ≠ []) :
    extract doc = [(matchupKey (teams b2.1), injuredPlayers b2)] := by
  unfold extract
  rw [hsplit]
  simp only [List.foldl_cons, List.foldl_nil]
  unfold processBox
  dsimp only
  rw [isEmpty_false_of_ne_nil h1, isEmpty_false_of_ne_nil h2]
  rw [if_neg (by simp), if_neg (by simp)]
  rw [← hk]
  simp [dictInsert]

theorem duplicate_matchup_last_write_wins_witness :
    matchupKey (teams exBoxDup1) = matchupKey (teams exBoxDup2) ∧
    injuredPlayers (exBoxDup1, ([exDocDup] : List Node)) ≠ [] ∧
    extract exDocDup = [("CHI vs MIA", ["Beta (OUT)"])] :=
  ⟨by decide, by decide,
    duplicate_matchup_last_write_wins exDocDup
      (exBoxDup1, [exDocDup]) (exBoxDup2, [exDocDup])
      rfl (by decide) (by decide) (by decide)⟩

/-! ## C4: qualifying spans always contribute an entry -/

theorem forestDescs_chain : (anc : List Node) → (f : NodeForest) →
    ∀ p ∈ forestDescs anc f, ∃ pre, p.2 = pre ++ anc
  | anc, NodeForest.nil => by
      intro p hp
      simp [forestDescs] at hp
  | anc, NodeForest.cons (Node.text s) rest => by
      intro p hp
      simp only [forestDescs] at hp
      rcases List.mem_cons.mp hp with h | h
      · exact ⟨[], by rw [h]; rfl⟩
      · exact forestDescs_chain anc rest p h
  | anc, NodeForest.cons (Node.elem t c ch) rest => by
      intro p hp
      simp only [forestDescs] at hp
      rcases List.mem_cons.mp hp with h | h
      · exact ⟨[], by rw [h]; rfl⟩
      · rcases List.mem_append.mp h with h' | h'
        · obtain ⟨pre, hpre⟩ := forestDescs_chain (Node.elem t c ch :: anc) ch p h'
          exact ⟨pre ++ [Node.elem t c ch], by rw [hpre]; simp⟩
        · exact forestDescs_chain anc rest p h'

theorem span_chain_has_div (b p : Node × List Node)
    (hdiv : Node.tagIs b.1 "div" = true) (hp : p ∈ statusSpans b) :
    ∃ y, y ∈ p.2 ∧ Node.tagIs y "div" = true := by
  have hmem : p ∈ Node.descsFrom b.2 b.1 := (List.mem_filter.mp hp).1
  cases hb1 : b.1 with
  | text s =>
      rw [hb1] at hmem
      simp [Node.descsFrom] at hmem
  | elem t c ch =>
      rw [hb1] at hmem
      unfold Node.descsFrom at hmem
      obtain ⟨pre, hpre⟩ := forestDescs_chain _ _ p hmem
      refine ⟨Node.elem t c ch, ?_, by rw [← hb1]; exact hdiv⟩
      rw [hpre]
      exact List.mem_append_right _ (List.mem_cons_self _ _)

theorem parent_resolves (b p : Node × List Node)
    (hdiv : Node.tagIs b.1 "div" = true) (hp : p ∈ statusSpans b) :
    ∃ x, (findParentTag "li" p.2).orElse (fun _ => findParentTag "div" p.2) = some x := by
  obtain ⟨y, hy, hytag⟩ := span_chain_has_div b p hdiv hp
  rcases hli : findParentTag "li" p.2 with _ | x
  · have hsome : (findParentTag "div" p.2).isSome := by
      unfold findParentTag
      rw [List.find?_isSome]
      exact ⟨y, hy, hytag⟩
    obtain ⟨x, hx⟩ := Option.isSome_iff_exists.mp hsome
    exact ⟨x, hx⟩
  · exact ⟨x, rfl⟩

/-- The player-name resolution as the spec states it: the trimmed text of
the first anchor inside the nearest enclosing `li` ancestor (falling back to
the nearest `div` ancestor), and the sentinel `"Unknown"` when no such
ancestor or no anchor exists. -/
def specPlayerName (anc : List Node) : String :=
  match (findParentTag "li" anc).orElse (fun _ => findParentTag "div" anc) with
  | some playerNode =>
      match findTagIn "a" playerNode with
      | some a => pyStrip (Node.getText a)
      | none => "Unknown"
  | none => "Unknown"

/-- C4: inside the extraction pass, a status span whose normalized text
qualifies always contributes exactly one descriptor — it is never dropped
for lack of an ancestor (the lineup box itself is a `div` ancestor) — and
the descriptor's name part is resolved exactly as the spec describes
(`specPlayerName`). -/
theorem qualifying_status_always_contributes (doc : Node) (b p : Node × List Node)
    (hb : b ∈ boxesOf doc) (hp : p ∈ statusSpans b)
    (hq : statusSet.contains (pyUpper (pyStrip (Node.getText p.1))) = true) :
    statusEntry p.2 p.1 =
      [specPlayerName p.2 ++ " (" ++ pyUpper (pyStrip (Node.getText p.1)) ++ ")"] := by
  have hdiv : Node.tagIs b.1 "div" = true := by
    have hfilter := (List.mem_filter.mp hb).2
    simp only [matchesTagClass, Bool.and_eq_true] at hfilter
    exact hfilter.1
  obtain ⟨x, hx⟩ := parent_resolves b p hdiv hp
  unfold statusEntry specPlayerName
  dsimp only
  rw [hq, hx]
  rfl

def exSpanOut : Node := Node.elem "span" ["lineup__status"] (nodesOf [Node.text "OUT"])

def exUl : Node := Node.elem "ul" [] (nodesOf [exLi])

def exSpanChain : List Node := [exLi, exUl, exBox, exDoc]

theorem qualifying_status_always_contributes_witness :
    statusSet.contains (pyUpper (pyStrip (Node.getText exSpanOut))) = true ∧
    statusEntry exSpanChain exSpanOut = ["LeBron James (OUT)"] :=
  ⟨by decide,
    qualifying_status_always_contributes exDoc (exBox, [exDoc]) (exSpanOut, exSpanChain)
      (List.mem_singleton.mpr rfl) (List.mem_singleton.mpr rfl) (by decide)⟩

/-! ## C5: the Sniper Alert keyword check -/

theorem nodup_keys_dictInsert (d : Report) (k : String) (v : List String)
    (h : (d.map Prod.fst).Nodup) : ((dictInsert d k v).map Prod.fst).Nodup := by
  rw [dictInsert_keys]
  by_cases hc : d.any (fun p => p.1 == k)
  · rwa [if_pos hc]
  · rw [if_neg hc]
    have hk : k ∉ d.map Prod.fst := by
      intro hmem
      rcases List.mem_map.mp hmem with ⟨p, hp, hpk⟩
      exact hc (List.any_eq_true.mpr ⟨p, hp, by simp [hpk]⟩)
    simp [List.nodup_append, h, hk]

theorem foldl_processBox_keys_nodup :
    ∀ (bs : List (Node × List Node)) (d : Report),
      (d.map Prod.fst).Nodup → ((bs.foldl processBox d).map Prod.fst).Nodup := by
  intro bs
  induction bs with
  | nil => intro d h; simpa using h
  | cons b rest ih =>
      intro d h
      simp only [List.foldl_cons]
      apply ih
      unfold processBox
      by_cases hinj : (injuredPlayers b).isEmpty = true
      · rwa [if_pos hinj]
      · rw [if_neg hinj]
        exact nodup_keys_dictInsert _ _ _ h

theorem extract_keys_nodup (doc : Node) : ((extract doc).map Prod.fst).Nodup :=
  foldl_processBox_keys_nodup (boxesOf doc) [] (by simp)

theorem nodup_keys_value_unique :
    ∀ (l : Report) (k : String) (ps ps' : List String),
      (l.map Prod.fst).Nodup → (k, ps) ∈ l → (k, ps') ∈ l → ps = ps' := by
  intro l
  induction l with
  | nil => intro k ps ps' _ h; simp at h
  | cons a t ih =>
      intro k ps ps' hnd h1 h2
      simp only [List.map_cons, List.nodup_cons] at hnd
      rcases List.mem_cons.mp h1 with h1 | h1 <;> rcases List.mem_cons.mp h2 with h2 | h2
      · rw [← h1] at h2
        exact ((Prod.mk.injEq _ _ _ _).mp h2.symm).2
      · rw [← h1] at hnd
        exact absurd (List.mem_map.mpr ⟨(k, ps'), h2, rfl⟩) hnd.1
      · rw [← h2] at hnd
        exact absurd (List.mem_map.mpr ⟨(k, ps), h1, rfl⟩) hnd.1
      · exact ih k ps ps' hnd.2 h1 h2

/-- C5 counterexample: in this document the only descriptor is
`"SCOUT (GTD)"`, whose status substring is `GTD`, not `OUT` — yet the alert
fires for the matchup, because the source tests `"OUT" in p` against the
whole descriptor string and the player name `SCOUT` contains `OUT`. -/
theorem alert_despite_no_out_status :
    (("AAA vs BBB", ["SCOUT (GTD)"]) ∈ extract exDocGtd) ∧
    (["SCOUT (GTD)"].any (fun p => strEndsWith p " (OUT)") = false) ∧
    ¬ (("AAA vs BBB" ∈ sniperAlerts (extract exDocGtd)) ↔
        ["SCOUT (GTD)"].any (fun p => strEndsWith p " (OUT)") = true) := by
  decide

/-- C5 (amended): the alert is printed for a matchup exactly when some
descriptor in its list contains `"OUT"` as a substring anywhere — including
inside the player name — not only as the parenthesized status part. -/
theorem alert_iff_descriptor_contains_out (doc : Node) (k : String) (ps : List String)
    (h : (k, ps) ∈ extract doc) :
    (k ∈ sniperAlerts (extract doc)) ↔ ps.any (fun p => strContains p "OUT") = true := by
  constructor
  · intro hk
    unfold sniperAlerts at hk
    rcases List.mem_map.mp hk with ⟨⟨k', ps'⟩, hmem, hfst⟩
    have hpred := (List.mem_filter.mp hmem).2
    have hmem' := (List.mem_filter.mp hmem).1
    have hk' : k' = k := hfst
    rw [hk'] at hmem'
    have hval : ps' = ps :=
      nodup_keys_value_unique _ _ _ _ (extract_keys_nodup doc) hmem' h
    rw [← hval]
    exact hpred
  · intro hps
    unfold sniperAlerts
    exact List.mem_map.mpr ⟨(k, ps), List.mem_filter.mpr ⟨h, hps⟩, rfl⟩

theorem alert_iff_descriptor_contains_out_witness :
    (("AAA vs BBB", ["SCOUT (GTD)"]) ∈ extract exDocGtd) ∧
    (("AAA vs BBB" ∈ sniperAlerts (extract exDocGtd)) ↔
      ["SCOUT (GTD)"].any (fun p => strContains p "OUT") = true) :=
  ⟨by decide,
    alert_iff_descriptor_contains_out exDocGtd "AAA vs BBB" ["SCOUT (GTD)"] (by decide)⟩
